import Mathlib

/-!
Verification development for the `hellohealth` voice-intake/scheduling
agent (`agent.py`, `utils.py`).  The Python source is shallowly embedded:
pure helpers become Lean functions; code that may raise returns
`Except PyErr`; the mutable `AppointmentInfo` object shared through the
session is modelled as a cell in an explicit heap, mirroring Python
reference semantics (needed because the `PatientInfo` dataclass uses a
single shared default `AppointmentInfo()` instance).  External
collaborators (phone/email validators, `dateparser`, SendGrid, the
physician CSV) are passed in as parameters holding their results, exactly
at the call sites where the source consults them.
-/

namespace HelloHealth

/-- Python exception kinds that the embedded code can raise. -/
inductive PyErr where
  | keyError
  | valueError
  | typeError
  | nameError
  deriving DecidableEq, Repr

instance {ε α : Type} [DecidableEq ε] [DecidableEq α] : DecidableEq (Except ε α)
  | .error a, .error b => if h : a = b then .isTrue (by rw [h]) else .isFalse (by simp [h])
  | .error _, .ok _ => .isFalse (by simp)
  | .ok _, .error _ => .isFalse (by simp)
  | .ok a, .ok b => if h : a = b then .isTrue (by rw [h]) else .isFalse (by simp [h])

/-- ASCII whitespace recognised by Python `str.strip` / regex `\s`. -/
def isPyWs (c : Char) : Bool :=
  c = ' ' || c = '\t' || c = '\n' || c = '\r' || c = '\x0b' || c = '\x0c'

/-- Embeds Python `str.strip()` (ASCII whitespace; inputs here are ASCII). -/
def pyStrip (s : String) : String :=
  String.mk (((s.toList.dropWhile isPyWs).reverse.dropWhile isPyWs).reverse)

/-- Embeds Python `str.lower()` (ASCII range; inputs here are ASCII). -/
def lowerStr (s : String) : String :=
  String.mk (s.toList.map Char.toLower)

/-- Decides whether `needle` is a prefix of `hay` (character lists). -/
def prefixOf : List Char → List Char → Bool
  | [], _ => true
  | _ :: _, [] => false
  | a :: as, b :: bs => a = b && prefixOf as bs

/-- Embeds Python `needle in hay` for strings (substring containment). -/
def substrOf (needle : List Char) : List Char → Bool
  | [] => needle.isEmpty
  | b :: bs => prefixOf needle (b :: bs) || substrOf needle bs

/-- Value of an ASCII digit character. -/
def dv (c : Char) : Nat := c.toNat - 48

/-- Candidate parses for strftime directive `%H`, whose regex is
`2[0-3]|[0-1]\d|\d`, listed in the alternation order that `re`
backtracking tries them. -/
def hCands (cs : List Char) : List (Nat × List Char) :=
  let a1 := match cs with
    | '2' :: c :: rest => if '0' ≤ c && c ≤ '3' then [(20 + dv c, rest)] else []
    | _ => []
  let a2 := match cs with
    | c :: d :: rest =>
      if (c = '0' || c = '1') && d.isDigit then [(10 * dv c + dv d, rest)] else []
    | _ => []
  let a3 := match cs with
    | c :: rest => if c.isDigit then [(dv c, rest)] else []
    | _ => []
  a1 ++ a2 ++ a3

/-- Candidate parses for strftime directive `%M`, regex `[0-5]\d|\d`. -/
def mCands (cs : List Char) : List (Nat × List Char) :=
  let a1 := match cs with
    | c :: d :: rest =>
      if ('0' ≤ c && c ≤ '5') && d.isDigit then [(10 * dv c + dv d, rest)] else []
    | _ => []
  let a2 := match cs with
    | c :: rest => if c.isDigit then [(dv c, rest)] else []
    | _ => []
  a1 ++ a2

/-- Embeds `datetime.strptime(s, "%H:%M")`: hour pattern, a literal colon,
minute pattern, and the whole string must be consumed (`_strptime` raises
`ValueError` on leftover data).  Returns the `(hour, minute)` pair. -/
def parseHM (s : String) : Option (Nat × Nat) :=
  (hCands s.toList).findSome? fun hc =>
    match hc.2 with
    | ':' :: rest2 =>
      (mCands rest2).findSome? fun mc => if mc.2 = [] then some (hc.1, mc.1) else none
    | _ => none

/-- Two-digit zero padding as produced by `strftime` `%H` / `%M`. -/
def pad2 (n : Nat) : String :=
  String.mk [Char.ofNat (48 + n / 10), Char.ofNat (48 + n % 10)]

/-- Formats an `(hour, minute)` pair the way `strftime("%H:%M")` does. -/
def formatHM (h m : Nat) : String := pad2 h ++ ":" ++ pad2 m

/-- Absolute difference of two naturals (Python `abs(a - b)` on ints). -/
def absDiff (a b : Nat) : Nat := if a ≤ b then b - a else a - b

/-- Minutes past midnight of a parsed `(hour, minute)` pair
(`t.hour * 60 + t.minute` in the source). -/
def minutesOfHM (p : Nat × Nat) : Nat := p.1 * 60 + p.2

/-- Embeds `utils.round_to_nearest_half_hour`.  The source computes
`round(minutes / 30) * 30` with Python `round`, which on the exact `.5`
tie (minute remainder 15) rounds half to even; for all other remainders
the float division is far enough from every tie or integer boundary that
`round` agrees with exact rational rounding.  The hour wraps with
`new_hour % 24` before `strftime`. -/
def round_to_nearest_half_hour (time_str : String) : Except PyErr String :=
  match parseHM time_str with
  | none => .error .valueError
  | some (h, m) =>
    let minutes := h * 60 + m
    let q := minutes / 30
    let r := minutes % 30
    let k := if r < 15 then q else if 15 < r then q + 1 else if q % 2 = 0 then q else q + 1
    let rounded := k * 30
    let nh := rounded / 60
    let nm := rounded % 60
    .ok (formatHM (nh % 24) nm)

/-- Loop of `utils.nearest_time`: `min_diff` starts at `float("inf")`
(modelled as `none`) and is replaced only on strict decrease, so the
earliest-listed slot is kept on ties.  Each candidate is parsed with
`strptime`, which raises `ValueError` on a malformed entry. -/
def nearestAux (tm : Nat) : List String → Option Nat → Option String → Except PyErr (Option String)
  | [], _, closest => .ok closest
  | s :: rest, minDiff, closest =>
    match parseHM s with
    | none => .error .valueError
    | some p =>
      let d := absDiff (minutesOfHM p) tm
      match minDiff with
      | none => nearestAux tm rest (some d) (some s)
      | some md =>
        if d < md then nearestAux tm rest (some d) (some s)
        else nearestAux tm rest (some md) closest

/-- Embeds `utils.nearest_time`.  Despite its docstring, the source does
not raise on an empty `times` list: `closest` stays `None` and is
returned. -/
def nearest_time (target : String) (times : List String) : Except PyErr (Option String) :=
  match parseHM target with
  | none => .error .valueError
  | some t => nearestAux (minutesOfHM t) times none none

/-- Leading capitalized word of the regex piece `[A-Z][a-zA-Z]+`
(at least two letters, first uppercase). -/
def isUpperA (c : Char) : Bool := 'A' ≤ c && c ≤ 'Z'

/-- ASCII letter, the regex class `[a-zA-Z]`. -/
def isAlphaA (c : Char) : Bool := ('A' ≤ c && c ≤ 'Z') || ('a' ≤ c && c ≤ 'z')

/-- Matches `[A-Z][a-zA-Z]+` at the head of the list, returning the word
and the remainder. -/
def takeWord : List Char → Option (List Char × List Char)
  | [] => none
  | c :: rest =>
    if isUpperA c then
      let letters := rest.takeWhile isAlphaA
      if letters.isEmpty then none
      else some (c :: letters, rest.dropWhile isAlphaA)
    else none

/-- Greedy star `(?:\s+[A-Z][a-zA-Z]+)*`: repeatedly consume whitespace
followed by a capitalized word, keeping the matched text (fuel bounds the
recursion; each step consumes at least two characters). -/
def extTail (cs : List Char) : Nat → List Char × List Char
  | 0 => ([], cs)
  | fuel + 1 =>
    let ws := cs.takeWhile isPyWs
    let r1 := cs.dropWhile isPyWs
    if ws.isEmpty then ([], cs)
    else match takeWord r1 with
      | none => ([], cs)
      | some (w, r2) =>
        let (ext, r3) := extTail r2 fuel
        (ws ++ w ++ ext, r3)

/-- Matches the capture group `[A-Z][a-zA-Z]+(?:\s+[A-Z][a-zA-Z]+)*`. -/
def takeWordSeq (cs : List Char) : Option (List Char × List Char) :=
  match takeWord cs with
  | none => none
  | some (w, r) =>
    let (ext, r2) := extTail r r.length
    some (w ++ ext, r2)

/-- Matches the optional group `(?:Dr\.?\s+)?` at the head: the literal
`Dr`, an optional dot, then mandatory whitespace.  Returns the remainder
when the group can match (the following `[A-Z]` cannot consume
whitespace, so greedy consumption is exact). -/
def stripDrLead (cs : List Char) : Option (List Char) :=
  match cs with
  | 'D' :: 'r' :: rest =>
    let afterDot := match rest with | '.' :: r => r | _ => rest
    let ws := afterDot.takeWhile isPyWs
    if ws.isEmpty then none else some (afterDot.dropWhile isPyWs)
  | _ => none

/-- Embeds `utils.normalize_name`: `re.match` of
`^(?:Dr\.?\s+)?([A-Z][a-zA-Z]+(?:\s+[A-Z][a-zA-Z]+)*)` against the
stripped name, returning group 1 on a match and the stripped name
otherwise.  When the `Dr` prefix consumes input but no capitalized word
follows, `re` backtracks and retries without the optional group. -/
def normalize_name (name : String) : String :=
  let t := pyStrip name
  let cs := t.toList
  match stripDrLead cs with
  | some rest =>
    match takeWordSeq rest with
    | some (seq, _) => String.mk seq
    | none =>
      match takeWordSeq cs with
      | some (seq, _) => String.mk seq
      | none => t
  | none =>
    match takeWordSeq cs with
    | some (seq, _) => String.mk seq
    | none => t

/-- A physician roster: the insertion-ordered `name -> slots` dict built
by `load_physicians` (keys distinct, as produced from the CSV). -/
abbrev Roster := List (String × List String)

/-- Embeds `utils.verify_physician`: case-insensitive substring test of
the normalized name against each roster key in order; the first hit is
returned as the single valid name, otherwise all keys are returned. -/
def verify_physician (roster : Roster) (physician : String) : Bool × List String :=
  let cleaned := normalize_name physician
  match roster.find? (fun e => substrOf (lowerStr cleaned).toList (lowerStr e.1).toList) with
  | some e => (true, [e.1])
  | none => (false, roster.map (fun e => e.1))

/-- Dict lookup `physician_info[physician]` as an `Option` (the `Except`
wrapper at the use site turns `none` into `KeyError`). -/
def lookupRoster (roster : Roster) (p : String) : Option (List String) :=
  (roster.find? (fun e => e.1 = p)).map (fun e => e.2)

/-- Python membership `x in times` where `x` may be `None`
(`None in list_of_str` is simply `False`). -/
def optMem (o : Option String) (times : List String) : Bool :=
  match o with
  | none => false
  | some t => times.contains t

/-- Embeds `utils.get_avaliability` (source spelling kept).  `time_str`
is `Option` because the caller passes `appointment_time`, which may be
`None`; `strptime(None, ...)` would raise `TypeError`.  An unknown
physician raises `KeyError` at `physician_info[physician]`. -/
def get_avaliability (roster : Roster) (time_str : Option String) (physician : Option String) :
    Except PyErr (Option String × Option String) :=
  match physician with
  | some p =>
    match lookupRoster roster p with
    | none => .error .keyError
    | some times =>
      if optMem time_str times then .ok (some p, time_str)
      else
        match time_str with
        | none => .error .typeError
        | some t =>
          match nearest_time t times with
          | .error e => .error e
          | .ok r => .ok (some p, r)
  | none =>
    match time_str with
    | none => .error .typeError
    | some t =>
      match round_to_nearest_half_hour t with
      | .error e => .error e
      | .ok rounded =>
        match roster.find? (fun e => e.2.contains rounded) with
        | some e => .ok (some e.1, some rounded)
        | none => .ok (none, none)

/-- Embeds the `AppointmentInfo` dataclass. `has_referral` is the
tri-state flag (`None` / `True` / `False`). -/
structure AppointmentInfo where
  has_referral : Option Bool := none
  physician : Option String := none
  appointment_date : Option String := none
  appointment_time : Option String := none
  deriving DecidableEq, Repr

/-- Address of the class-level default `AppointmentInfo()`: the dataclass
field `appointment_info: AppointmentInfo = AppointmentInfo()` evaluates
its default once when the class body runs, so every `PatientInfo()`
constructed without an explicit argument references that same object
(CPython < 3.11 semantics; 3.11+ rejects the class definition itself). -/
def classDefaultApptAddr : Nat := 0

/-- Embeds the `PatientInfo` dataclass.  `appointment_info` stores the
address of an `AppointmentInfo` cell in the appointment heap, reflecting
Python reference semantics; its default is the shared class-level cell. -/
structure PatientInfo where
  patient_name : Option String := none
  date_of_birth : Option String := none
  insurance_payer_name : Option String := none
  insurance_id : Option String := none
  reason_for_visit : Option String := none
  address : Option String := none
  phone_number : Option String := none
  provide_email : Option Bool := none
  email : Option String := none
  appointment_info : Nat := classDefaultApptAddr
  deriving DecidableEq, Repr

/-- Heap of `AppointmentInfo` objects, indexed by address. -/
abbrev ApptHeap := List AppointmentInfo

/-- The heap as it stands after the module is loaded: exactly one
`AppointmentInfo()` — the shared dataclass default. -/
def initialApptHeap : ApptHeap := [{}]

/-- Dereference a record's `appointment_info` pointer. -/
def apptOf (h : ApptHeap) (u : PatientInfo) : AppointmentInfo :=
  (h.get? u.appointment_info).getD {}

/-- Write through a record's `appointment_info` pointer. -/
def setAppt (h : ApptHeap) (u : PatientInfo) (a : AppointmentInfo) : ApptHeap :=
  h.set u.appointment_info a

/-- Python truthiness of an `Optional[str]`: `None` and the empty string
are falsy. -/
def pyTruthy : Option String → Bool
  | none => false
  | some s => decide (s ≠ "")

/-- Message returned by `SchedulingAgent._handoff_if_done` when the
referral flag is set but no physician was recorded. -/
def msgNeedsPhysician : String :=
  "You mentioned you have a referral — please provide the referring physician\x27s name."

/-- Message returned by `SchedulingAgent._handoff_if_done` while
appointment fields are still missing. -/
def msgSchedContinue : String :=
  "Information recorded. Continue gathering the missing details. Please do not end the call until we finish collecting the required information."

/-- Summary prompt returned by the `confirm_and_end` of both agents when
called with a false confirmation. -/
def msgConfirmSummary : String :=
  "Here are the details you provided. Please let me know what details need to be updated, or confirm if they are correct."

/-- Terminal reply of `SchedulingAgent.confirm_and_end` on success. -/
def msgGoodbye : String := "Goodbye!"

/-- Failure reply of `SchedulingAgent.confirm_and_end` when finalization
did not succeed. -/
def msgSchedError : String :=
  "Sorry — there was an error scheduling your appointment. Please call again later."

/-- Reply of `SchedulingAgent.record_appointment_time` when
`to_time_string` raised. -/
def msgInvalidTime : String :=
  "The time provided seems invalid. Please provide a valid time for your appointment."

/-- Reply of `SchedulingAgent.record_appointment_date` when
`to_date_string` raised. -/
def msgInvalidDate : String :=
  "The date provided seems invalid. Please provide a valid date for your appointment."

/-- Reply of `SchedulingAgent.record_physician` when `verify_physician`
raised. -/
def msgPhysicianDown : String :=
  "Sorry — I couldn\x27t validate the physician right now. Please try again or continue without a referral."

/-- Embeds `", ".join(valid_names)`. -/
def joinComma : List String → String
  | [] => ""
  | [s] => s
  | s :: rest => s ++ ", " ++ joinComma rest

/-- Rejection reply of `SchedulingAgent.record_physician`, carrying the
joined roster names as recovery choices. -/
def msgPhysicianInvalid (choices : String) : String :=
  "The physician name provided does not match our records. Valid names are: " ++ choices ++
    ". Please provide a valid physician name or say \x27continue without a referral\x27."

/-- Embeds `SchedulingAgent._handoff_if_done`: once date, time and the
referral flag are all present, either ask for the physician (referral
true, physician falsy) or fall through to `confirm_and_end(context,
False)`, whose false branch returns the confirmation summary.  The
function has no side effects. -/
def sched_handoff_if_done (ai : AppointmentInfo) : String :=
  if pyTruthy ai.appointment_date && pyTruthy ai.appointment_time
      && decide (ai.has_referral ≠ none) then
    if decide (ai.has_referral = some true) && !(pyTruthy ai.physician) then
      msgNeedsPhysician
    else msgConfirmSummary
  else msgSchedContinue

/-- Embeds `SchedulingAgent.record_has_referral`: store the flag through
the session's `appointment_info` reference, then run the handoff check. -/
def record_has_referral (h : ApptHeap) (u : PatientInfo) (b : Bool) : String × ApptHeap :=
  let ai := { apptOf h u with has_referral := some b }
  (sched_handoff_if_done ai, setAppt h u ai)

/-- Embeds `SchedulingAgent.record_physician` (roster passed in for
`verify_physician`; the surrounding `try` would isolate a validator
exception, which the total model cannot produce). -/
def record_physician (roster : Roster) (h : ApptHeap) (u : PatientInfo) (physician : String) :
    String × ApptHeap :=
  match verify_physician roster physician with
  | (true, d :: _) =>
    let ai := { apptOf h u with physician := some d }
    (sched_handoff_if_done ai, setAppt h u ai)
  | (_, names) => (msgPhysicianInvalid (joinComma names), h)

/-- Embeds `SchedulingAgent.record_appointment_date`; `dateRes` is the
outcome of the external `to_date_string` call (`.error` = it raised). -/
def record_appointment_date (dateRes : Except PyErr String) (h : ApptHeap) (u : PatientInfo) :
    String × ApptHeap :=
  match dateRes with
  | .error _ => (msgInvalidDate, h)
  | .ok d =>
    let ai := { apptOf h u with appointment_date := some d }
    (sched_handoff_if_done ai, setAppt h u ai)

/-- Embeds `SchedulingAgent.record_appointment_time`; `timeRes` is the
outcome of the external `to_time_string` call. -/
def record_appointment_time (timeRes : Except PyErr String) (h : ApptHeap) (u : PatientInfo) :
    String × ApptHeap :=
  match timeRes with
  | .error _ => (msgInvalidTime, h)
  | .ok t =>
    let ai := { apptOf h u with appointment_time := some t }
    (sched_handoff_if_done ai, setAppt h u ai)

/-- Embeds `SchedulingAgent._finalize_datetime_and_send_email`.
`emailRes` is the outcome of the external `send_email` call (`.ok b` =
returned `b`, `.error` = raised; both failure shapes are caught and
yield `False`).  The `get_avaliability` call is wrapped in `try`, so any
of its exceptions also yields `False`.  On a usable `(physician, time)`
the session's appointment object is mutated (physician always, the time
only when it differs) before the email step; a later email failure does
not roll that mutation back. -/
def finalize_datetime_and_send_email (roster : Roster) (emailRes : Except PyErr Bool)
    (h : ApptHeap) (u : PatientInfo) : Bool × ApptHeap :=
  let ai := apptOf h u
  match get_avaliability roster ai.appointment_time ai.physician with
  | .error _ => (false, h)
  | .ok (physician, available_time) =>
    if !(pyTruthy physician) || !(pyTruthy available_time) then (false, h)
    else
      let ai1 := { ai with physician := physician }
      let ai2 :=
        if ai1.appointment_time ≠ available_time then
          { ai1 with appointment_time := available_time }
        else ai1
      let h2 := setAppt h u ai2
      match emailRes with
      | .error _ => (false, h2)
      | .ok emailed => if emailed then (true, h2) else (false, h2)

/-- Session-level state for the scheduling phase: the appointment heap
plus whether `session.aclose()` has been reached (the session is closed
logically even if the transport-level close raises — that exception is
swallowed). -/
structure SessionState where
  heap : ApptHeap
  closed : Bool
  deriving DecidableEq, Repr

/-- Embeds `SchedulingAgent.confirm_and_end`: only an explicit
`confirmed = True` triggers finalization; on success the session is
closed and "Goodbye!" returned, on failure the retry-later message; a
false confirmation re-surfaces the summary without touching state. -/
def sched_confirm_and_end (roster : Roster) (emailRes : Except PyErr Bool) (u : PatientInfo)
    (confirmed : Bool) (st : SessionState) : String × SessionState :=
  if confirmed then
    let r := finalize_datetime_and_send_email roster emailRes st.heap u
    if r.1 then (msgGoodbye, { heap := r.2, closed := true })
    else (msgSchedError, { st with heap := r.2 })
  else (msgConfirmSummary, st)

/-- Return value of an Intake tool call: either a spoken instruction
string or the `SchedulingAgent()` handoff object. -/
inductive IntakeReturn where
  | msg : String → IntakeReturn
  | handoffToScheduling : IntakeReturn
  deriving DecidableEq, Repr

/-- Continuation message of `IntakeAgent._handoff_if_done` while required
fields are missing. -/
def msgIntakeContinue : String :=
  "Information recorded. Continue gathering the missing details. Please do not end the call until all required information is collected. Providing an email is optional but recommended."

/-- Reply of `IntakeAgent.record_phone_number` when `verify_phone`
raised. -/
def msgPhoneDown : String :=
  "I couldn\x27t validate that phone number right now. Please try again."

/-- Reply of `IntakeAgent.record_phone_number` when the number is
invalid. -/
def msgPhoneInvalid : String :=
  "The phone number provided seems invalid. Please provide a valid phone number including area code."

/-- Embeds the nested `all_info_collected` predicate of
`IntakeAgent._handoff_if_done` (seven `is not None` checks; email and the
`provide_email` flag are not among them). -/
def all_info_collected (u : PatientInfo) : Bool :=
  u.patient_name.isSome && u.date_of_birth.isSome && u.insurance_payer_name.isSome
    && u.insurance_id.isSome && u.reason_for_visit.isSome && u.address.isSome
    && u.phone_number.isSome

/-- Embeds `IntakeAgent._handoff_if_done`.  When everything is collected
the source evaluates `if provided_email is None:`, but `provided_email`
is bound nowhere in the module (the dataclass field is `provide_email` on
the userdata), so CPython raises `NameError` there; the email prompts and
the `confirm_and_end(context, False)` call after it are unreachable. -/
def intake_handoff_if_done (u : PatientInfo) : Except PyErr IntakeReturn :=
  if all_info_collected u then .error .nameError
  else .ok (.msg msgIntakeContinue)

/-- Embeds `IntakeAgent.record_name`. -/
def record_name (u : PatientInfo) (name : String) : Except PyErr IntakeReturn × PatientInfo :=
  let u2 := { u with patient_name := some name }
  (intake_handoff_if_done u2, u2)

/-- Embeds `IntakeAgent.record_reason_for_visit`. -/
def record_reason_for_visit (u : PatientInfo) (reason : String) :
    Except PyErr IntakeReturn × PatientInfo :=
  let u2 := { u with reason_for_visit := some reason }
  (intake_handoff_if_done u2, u2)

/-- Embeds `IntakeAgent.record_phone_number`; `phoneRes` is the outcome
of the external `verify_phone` call: an exception is caught and turned
into a retry message, `None` into an invalid-number message, and only a
parsed value is stored. -/
def record_phone_number (phoneRes : Except PyErr (Option String)) (u : PatientInfo) :
    Except PyErr IntakeReturn × PatientInfo :=
  match phoneRes with
  | .error _ => (.ok (.msg msgPhoneDown), u)
  | .ok none => (.ok (.msg msgPhoneInvalid), u)
  | .ok (some parsed) =>
    let u2 := { u with phone_number := some parsed }
    (intake_handoff_if_done u2, u2)

/-- Embeds `IntakeAgent.confirm_and_end`: an explicit true confirmation
returns the `SchedulingAgent()` handoff object; false re-surfaces the
summary. -/
def intake_confirm_and_end (confirm : Bool) : IntakeReturn :=
  if confirm then .handoffToScheduling else .msg msgConfirmSummary

/-- A fresh `PatientInfo()` exactly as `entrypoint` constructs one per
session (all field defaults, in particular the shared
`appointment_info` default cell). -/
def newPatientInfo : PatientInfo := {}

/-- In-bounds update followed by lookup at the same index. -/
theorem get?_set_self {α : Type} :
    ∀ (l : List α) (i : Nat) (a : α), i < l.length → (l.set i a).get? i = some a
  | _ :: _, 0, _, _ => rfl
  | _ :: l, i + 1, a, hlt => get?_set_self l i a (Nat.lt_of_succ_lt_succ hlt)
  | [], _, _, hlt => absurd hlt (by simp)

/-- Writing through a record's appointment pointer and reading it back
through the same pointer yields the written object, provided the address
is live in the heap. -/
theorem apptOf_setAppt (h : ApptHeap) (u : PatientInfo) (a : AppointmentInfo)
    (hlt : u.appointment_info < h.length) : apptOf (setAppt h u a) u = a := by
  unfold apptOf setAppt
  rw [get?_set_self _ _ _ hlt]
  rfl

/-- Demo roster with a single physician used by several concrete runs. -/
def rosterSmith : Roster := [("Smith", ["09:00"])]

/-- Appointment state naming a physician absent from the roster. -/
def aiUnknownPhys : AppointmentInfo :=
  ⟨some true, some "Nobody", some "05-01-2026", some "10:00"⟩

/-- Appointment state with no physician and a time no physician offers. -/
def aiNoPhys : AppointmentInfo :=
  ⟨some false, none, some "05-01-2026", some "10:00"⟩

/-- Intake record with every required field except the name. -/
def demoIntakeNoName : PatientInfo :=
  { date_of_birth := some "01-01-1990", insurance_payer_name := some "Acme Health",
    insurance_id := some "A123", reason_for_visit := some "checkup",
    address := some "1 Main St", phone_number := some "+1 555-0100" }

/-- Intake record with every required field except the visit reason. -/
def demoIntakeNoReason : PatientInfo :=
  { patient_name := some "Ann Example", date_of_birth := some "01-01-1990",
    insurance_payer_name := some "Acme Health", insurance_id := some "A123",
    address := some "1 Main St", phone_number := some "+1 555-0100" }

/-- Scheduling state with referral answered `false` and a date recorded,
the time still missing. -/
def aiDateOnlyNoRef : AppointmentInfo := ⟨some false, none, some "05-01-2026", none⟩

/-- Scheduling state that is complete with referral `false`. -/
def aiCompleteNoRef : AppointmentInfo := ⟨some false, none, some "05-01-2026", some "14:00"⟩

/-- C1 (code_bug): a `verify_phone` exception is isolated by the Intake
controller, but the submission that completes the Intake required-field
set — whatever the value of the provide-email flag — raises `NameError`
out of `IntakeAgent._handoff_if_done` (the unbound name
`provided_email`) instead of returning a directive or message. -/
theorem c1_completing_submission_raises :
    (record_phone_number (.error .valueError) {}).1 = .ok (.msg msgPhoneDown) ∧
    (record_name { demoIntakeNoName with provide_email := none } "Ann").1 = .error .nameError ∧
    (record_name { demoIntakeNoName with provide_email := some true } "Ann").1
      = .error .nameError ∧
    (record_name { demoIntakeNoName with provide_email := some false } "Ann").1
      = .error .nameError := by
  decide

/-- C2 counterexample: an unknown-physician run and a
no-availability run of the Finalization Pipeline return the very same
result — `False` from `_finalize_datetime_and_send_email` and the same
retry-later reply from `confirm_and_end` — so finalization does not
report them as distinct `LookupFailed` / `NoAvailability` results. -/
theorem c2_finalize_results_not_distinct :
    (finalize_datetime_and_send_email rosterSmith (.ok true) [aiUnknownPhys] newPatientInfo).1
        = false ∧
    (finalize_datetime_and_send_email rosterSmith (.ok true) [aiNoPhys] newPatientInfo).1
        = false ∧
    (sched_confirm_and_end rosterSmith (.ok true) newPatientInfo true ⟨[aiUnknownPhys], false⟩).1
      = (sched_confirm_and_end rosterSmith (.ok true) newPatientInfo true ⟨[aiNoPhys], false⟩).1 := by
  decide

/-- C2 (amended): at the resolver, an unknown physician raises `KeyError`
— an outcome distinct from the `(None, None)` returned when no physician
has the rounded slot — but `_finalize_datetime_and_send_email` converts
both to the same boolean failure `False`. -/
theorem c2_resolver_error_distinct_finalize_collapses :
    get_avaliability rosterSmith (some "10:00") (some "Nobody") = .error .keyError ∧
    get_avaliability rosterSmith (some "10:00") none = .ok (none, none) ∧
    (Except.error PyErr.keyError : Except PyErr (Option String × Option String))
      ≠ .ok (none, none) ∧
    (finalize_datetime_and_send_email rosterSmith (.ok true) [aiUnknownPhys] newPatientInfo).1
      = (finalize_datetime_and_send_email rosterSmith (.ok true) [aiNoPhys] newPatientInfo).1 := by
  decide

/-- C3 (code_bug): in the Scheduling phase, submitting the last missing
field moves the directive from the continue prompt to the confirmation
summary, and a false confirmation never advances (in either phase); but
in the Intake phase the submission completing the required set raises
`NameError` out of `_handoff_if_done` instead of surfacing the
ready-to-confirm summary. -/
theorem c3_last_field_summary_but_intake_raises :
    sched_handoff_if_done aiDateOnlyNoRef = msgSchedContinue ∧
    (record_appointment_time (.ok "14:00") [aiDateOnlyNoRef] newPatientInfo).1
      = msgConfirmSummary ∧
    sched_confirm_and_end rosterSmith (.ok true) newPatientInfo false ⟨[aiCompleteNoRef], false⟩
      = (msgConfirmSummary, ⟨[aiCompleteNoRef], false⟩) ∧
    intake_confirm_and_end false = .msg msgConfirmSummary ∧
    (record_reason_for_visit demoIntakeNoReason "checkup").1 = .error .nameError := by
  decide

/-- C4: completeness is decided from the current referral flag on every
submission — with date and time present and no physician recorded,
submitting has-referral `true` returns the physician-requesting prompt,
while submitting `false` in the same state returns the confirmation
summary. -/
theorem c4_referral_gating_fresh (h : ApptHeap) (u : PatientInfo)
    (hdate : pyTruthy (apptOf h u).appointment_date = true)
    (htime : pyTruthy (apptOf h u).appointment_time = true)
    (hphys : pyTruthy (apptOf h u).physician = false) :
    (record_has_referral h u true).1 = msgNeedsPhysician ∧
    (record_has_referral h u false).1 = msgConfirmSummary := by
  unfold record_has_referral sched_handoff_if_done
  simp [hdate, htime, hphys]

/-- Witness for `c4_referral_gating_fresh` at a concrete heap and
record. -/
theorem c4_referral_gating_fresh_witness :
    (record_has_referral [⟨none, none, some "05-01-2026", some "14:00"⟩] newPatientInfo true).1
      = msgNeedsPhysician ∧
    (record_has_referral [⟨none, none, some "05-01-2026", some "14:00"⟩] newPatientInfo false).1
      = msgConfirmSummary :=
  c4_referral_gating_fresh _ _ (by decide) (by decide) (by decide)

/-- C5: when the resolver hands back a usable `(physician, time)` but
notification dispatch fails (returns `False` or raises), finalization
returns the failure outcome, the session is not closed, and the
resolved physician and time written to the appointment record before the
email step are kept, not rolled back. -/
theorem c5_notify_failure_keeps_resolved_state (roster : Roster)
    (emailRes : Except PyErr Bool) (h : ApptHeap) (u : PatientInfo) (p t : String)
    (hres : get_avaliability roster (apptOf h u).appointment_time (apptOf h u).physician
      = .ok (some p, some t))
    (hp : p ≠ "") (ht : t ≠ "")
    (hmail : emailRes = .ok false ∨ ∃ e, emailRes = .error e)
    (haddr : u.appointment_info < h.length) :
    (sched_confirm_and_end roster emailRes u true ⟨h, false⟩).1 = msgSchedError ∧
    (sched_confirm_and_end roster emailRes u true ⟨h, false⟩).2.closed = false ∧
    (apptOf (sched_confirm_and_end roster emailRes u true ⟨h, false⟩).2.heap u).appointment_time
      = some t ∧
    (apptOf (sched_confirm_and_end roster emailRes u true ⟨h, false⟩).2.heap u).physician
      = some p := by
  obtain ⟨a2, hfin, ha2t, ha2p⟩ :
      ∃ a2 : AppointmentInfo,
        finalize_datetime_and_send_email roster emailRes h u = (false, setAppt h u a2)
          ∧ a2.appointment_time = some t ∧ a2.physician = some p := by
    by_cases hc : (apptOf h u).appointment_time = some t
    · refine ⟨{ apptOf h u with physician := some p }, ?_, by simpa using hc, rfl⟩
      simp only [finalize_datetime_and_send_email, hres]
      simp only [pyTruthy]
      simp [hp, ht, hc]
      rcases hmail with hm | ⟨e, hm⟩ <;> subst hm <;> simp
    · refine ⟨{ apptOf h u with physician := some p, appointment_time := some t }, ?_, rfl, rfl⟩
      simp only [finalize_datetime_and_send_email, hres]
      simp only [pyTruthy]
      simp [hp, ht, hc]
      rcases hmail with hm | ⟨e, hm⟩ <;> subst hm <;> simp
  have happt := apptOf_setAppt h u a2 haddr
  refine ⟨?_, ?_, ?_, ?_⟩ <;> simp [sched_confirm_and_end, hfin, happt, ha2t, ha2p]

/-- Witness for `c5_notify_failure_keeps_resolved_state`: the requested
time "14:30" resolves to the nearest slot "14:00", the email step
reports failure, and the rescheduled time stays recorded while the
session stays open. -/
theorem c5_notify_failure_keeps_resolved_state_witness :
    (sched_confirm_and_end [("Smith", ["14:00"])] (.ok false) newPatientInfo true
        ⟨[⟨some true, some "Smith", some "05-01-2026", some "14:30"⟩], false⟩).1 = msgSchedError ∧
    (sched_confirm_and_end [("Smith", ["14:00"])] (.ok false) newPatientInfo true
        ⟨[⟨some true, some "Smith", some "05-01-2026", some "14:30"⟩], false⟩).2.closed = false ∧
    (apptOf (sched_confirm_and_end [("Smith", ["14:00"])] (.ok false) newPatientInfo true
        ⟨[⟨some true, some "Smith", some "05-01-2026", some "14:30"⟩], false⟩).2.heap
      newPatientInfo).appointment_time = some "14:00" ∧
    (apptOf (sched_confirm_and_end [("Smith", ["14:00"])] (.ok false) newPatientInfo true
        ⟨[⟨some true, some "Smith", some "05-01-2026", some "14:30"⟩], false⟩).2.heap
      newPatientInfo).physician = some "Smith" :=
  c5_notify_failure_keeps_resolved_state _ _ _ _ "Smith" "14:00" (by decide) (by decide)
    (by decide) (Or.inl rfl) (by decide)

/-- Checks that a string is a well-formed `HH:MM` clock time on a
30-minute boundary (two-digit padded, hour below 24). -/
def validHalfHourHM (s : String) : Bool :=
  match parseHM s with
  | some (hh, mm) =>
    decide (hh < 24) && (decide (mm = 0) || decide (mm = 30)) && decide (s.length = 5)
  | none => false

/-- C6 counterexample: the rounding tie is not resolved half-up —
`round_to_nearest_half_hour "09:15"` yields `"09:00"` (Python `round`
rounds the half tie to the even half-hour count), not `"09:30"`. -/
theorem c6_round_0915_is_0900_not_0930 :
    round_to_nearest_half_hour "09:15" = .ok "09:00" ∧
    (Except.ok "09:00" : Except PyErr String) ≠ .ok "09:30" := by
  decide

set_option maxRecDepth 4000 in
/-- C6 (amended): the tie rule is round-half-to-even on the half-hour
index — `"09:15"` rounds down to `"09:00"` while `"09:45"` rounds up to
`"10:00"` — and for every valid `HH:MM` input the result is a valid
`HH:MM` time on a 30-minute boundary with the hour wrapping at 24. -/
theorem c6_round_half_even_and_always_valid :
    round_to_nearest_half_hour "09:15" = .ok "09:00" ∧
    round_to_nearest_half_hour "09:45" = .ok "10:00" ∧
    round_to_nearest_half_hour "23:45" = .ok "00:00" ∧
    ∀ h : Fin 24, ∀ m : Fin 60,
      (match round_to_nearest_half_hour (formatHM h.val m.val) with
       | .ok s => validHalfHourHM s
       | .error _ => false) = true := by
  decide

/-- C8: a physician present in the roster with an empty slot list does
not crash resolution — `nearest_time` over the empty list returns `None`
(despite its docstring), `get_avaliability` returns the physician paired
with no time, and finalization reports failure without closing the
session or touching state. -/
theorem c8_empty_slot_set_no_crash (roster : Roster) (p t : String) (tp : Nat × Nat)
    (emailRes : Except PyErr Bool) (h : ApptHeap) (u : PatientInfo)
    (hr : Option Bool) (dt : Option String)
    (hlook : lookupRoster roster p = some [])
    (hparse : parseHM t = some tp)
    (hai : apptOf h u = ⟨hr, some p, dt, some t⟩) :
    nearest_time t [] = .ok none ∧
    get_avaliability roster (some t) (some p) = .ok (some p, none) ∧
    finalize_datetime_and_send_email roster emailRes h u = (false, h) ∧
    sched_confirm_and_end roster emailRes u true ⟨h, false⟩ = (msgSchedError, ⟨h, false⟩) := by
  have h1 : nearest_time t [] = .ok none := by
    simp [nearest_time, hparse, nearestAux]
  have h2 : get_avaliability roster (some t) (some p) = .ok (some p, none) := by
    simp [get_avaliability, hlook, optMem, h1]
  have h3 : finalize_datetime_and_send_email roster emailRes h u = (false, h) := by
    simp [finalize_datetime_and_send_email, hai, h2, pyTruthy]
  have h4 : sched_confirm_and_end roster emailRes u true ⟨h, false⟩
      = (msgSchedError, ⟨h, false⟩) := by
    simp [sched_confirm_and_end, h3]
  exact ⟨h1, h2, h3, h4⟩

/-- Witness for `c8_empty_slot_set_no_crash` on a roster whose only
physician has no open slots. -/
theorem c8_empty_slot_set_no_crash_witness :
    nearest_time "09:00" [] = .ok none ∧
    get_avaliability [("Jones", [])] (some "09:00") (some "Jones") = .ok (some "Jones", none) ∧
    finalize_datetime_and_send_email [("Jones", [])] (.ok true)
        [⟨none, some "Jones", none, some "09:00"⟩] newPatientInfo
      = (false, [⟨none, some "Jones", none, some "09:00"⟩]) ∧
    sched_confirm_and_end [("Jones", [])] (.ok true) newPatientInfo true
        ⟨[⟨none, some "Jones", none, some "09:00"⟩], false⟩
      = (msgSchedError, ⟨[⟨none, some "Jones", none, some "09:00"⟩], false⟩) :=
  c8_empty_slot_set_no_crash [("Jones", [])] "Jones" "09:00" (9, 0) (.ok true)
    [⟨none, some "Jones", none, some "09:00"⟩] newPatientInfo none none
    (by decide) (by decide) (by decide)

/-- Distance in minutes between a slot string and a target minute count
(total; the theorems establish that the slot parses, so the `getD`
default is never consulted). -/
def slotDist (tm : Nat) (s : String) : Nat :=
  absDiff (minutesOfHM ((parseHM s).getD (0, 0))) tm

/-- Modelled from the spec words for the tie rule: among a head element
and a list, the earliest-listed pair of minimal second component (a
later element replaces the current choice only when strictly smaller). -/
def firstMin1 (p : String × Nat) : List (String × Nat) → String × Nat
  | [] => p
  | q :: rest =>
    let r := firstMin1 q rest
    if r.2 < p.2 then r else p

/-- Slots annotated with their distance to the target. -/
def distPairs (tm : Nat) (times : List String) : List (String × Nat) :=
  times.map (fun s => (s, slotDist tm s))

/-- The chosen pair never has a larger distance than the head. -/
theorem firstMin1_snd_le (p : String × Nat) : ∀ l, (firstMin1 p l).2 ≤ p.2
  | [] => Nat.le_refl _
  | q :: rest => by
    simp only [firstMin1]
    split
    · omega
    · exact Nat.le_refl _

/-- Unfolding `firstMin1` from the left: the head survives against the
next element exactly when the next element is not strictly closer. -/
theorem firstMin1_cons (p q : String × Nat) (l : List (String × Nat)) :
    firstMin1 p (q :: l) = if q.2 < p.2 then firstMin1 q l else firstMin1 p l := by
  cases l with
  | nil => simp [firstMin1]
  | cons x xs =>
    have hle := firstMin1_snd_le x xs
    simp only [firstMin1]
    by_cases h1 : (firstMin1 x xs).2 < q.2 <;> by_cases h2 : q.2 < p.2 <;>
      simp only [h1, h2, if_pos, if_neg, if_true, if_false] <;>
      split <;> first | rfl | omega

/-- The loop of `nearest_time` computes exactly the earliest-listed
minimal-distance choice over the accumulator followed by the remaining
slots. -/
theorem nearestAux_eq_firstMin1 (tm : Nat) :
    ∀ (times : List String), (∀ s ∈ times, (parseHM s).isSome = true) →
      ∀ (c : String) (d : Nat),
        nearestAux tm times (some d) (some c)
          = .ok (some (firstMin1 (c, d) (distPairs tm times)).1) := by
  intro times
  induction times with
  | nil => intro _ c d; rfl
  | cons s rest ih =>
    intro hall c d
    have hs : (parseHM s).isSome = true := hall s (by simp)
    obtain ⟨ps, hps⟩ := Option.isSome_iff_exists.mp hs
    have hrest : ∀ x ∈ rest, (parseHM x).isSome = true := fun x hx => hall x (by simp [hx])
    have hd : absDiff (minutesOfHM ps) tm = slotDist tm s := by simp [slotDist, hps]
    simp only [nearestAux, hps, hd]
    have hpairs : distPairs tm (s :: rest) = (s, slotDist tm s) :: distPairs tm rest := by
      simp [distPairs]
    rw [hpairs, firstMin1_cons]
    by_cases hlt : slotDist tm s < d
    · rw [if_pos hlt, if_pos hlt, ih hrest]
    · rw [if_neg hlt, if_neg hlt, ih hrest]

/-- The `firstMin1` choice is an element of the list, has minimal second
component, and every strictly earlier element is strictly larger. -/
theorem firstMin1_spec : ∀ (l : List (String × Nat)) (p : String × Nat),
    ∃ i, i < (p :: l).length ∧ (p :: l).get? i = some (firstMin1 p l) ∧
      (∀ q ∈ p :: l, (firstMin1 p l).2 ≤ q.2) ∧
      (∀ j q, j < i → (p :: l).get? j = some q → (firstMin1 p l).2 < q.2) := by
  intro l
  induction l with
  | nil =>
    intro p
    refine ⟨0, by simp, rfl, by simp [firstMin1], fun j q hj _ => by omega⟩
  | cons x xs ih =>
    intro p
    obtain ⟨i, hi, hget, hmin, hstrict⟩ := ih x
    simp only [firstMin1]
    by_cases hlt : (firstMin1 x xs).2 < p.2
    · rw [if_pos hlt]
      refine ⟨i + 1, by simpa using hi, by simpa using hget, ?_, ?_⟩
      · intro q hq
        rcases List.mem_cons.mp hq with rfl | hq
        · exact Nat.le_of_lt hlt
        · exact hmin q hq
      · intro j q hj hgq
        cases j with
        | zero =>
          simp only [List.get?] at hgq
          cases hgq
          exact hlt
        | succ j2 =>
          exact hstrict j2 q (by omega) hgq
    · rw [if_neg hlt]
      refine ⟨0, by simp, rfl, ?_, fun j q hj _ => by omega⟩
      intro q hq
      rcases List.mem_cons.mp hq with rfl | hq
      · exact Nat.le_refl _
      · exact Nat.le_trans (Nat.le_of_not_lt hlt) (hmin q hq)

/-- C7 counterexample: with slots ["09:00", "10:00"] and request
"09:40" the distances are 40 and 20 minutes — not a tie — so the
resolver returns "10:00", not "09:00" as the claim states. -/
theorem c7_0940_returns_1000_not_0900 :
    nearest_time "09:40" ["09:00", "10:00"] = .ok (some "10:00") ∧
    get_avaliability [("Smith", ["09:00", "10:00"])] (some "09:40") (some "Smith")
      = .ok (some "Smith", some "10:00") ∧
    (Except.ok (some "10:00") : Except PyErr (Option String)) ≠ .ok (some "09:00") := by
  decide

/-- C7 (amended): for request "09:40" the resolver returns the strictly
nearest "10:00"; in general `nearest_time` returns the earliest-listed
slot of minimal absolute minute-distance — every slot listed before the
returned one is strictly farther, so genuine ties resolve to the
earlier-listed slot. -/
theorem c7_nearest_earliest_minimal (target : String) (times : List String)
    (tp : Nat × Nat) (ht : parseHM target = some tp)
    (hall : ∀ s ∈ times, (parseHM s).isSome = true) :
    (times = [] → nearest_time target times = .ok none) ∧
    (times ≠ [] → ∃ i ri, i < times.length ∧ times.get? i = some ri ∧
      nearest_time target times = .ok (some ri) ∧
      (∀ s ∈ times, slotDist (minutesOfHM tp) ri ≤ slotDist (minutesOfHM tp) s) ∧
      (∀ j sj, j < i → times.get? j = some sj →
        slotDist (minutesOfHM tp) ri < slotDist (minutesOfHM tp) sj)) := by
  constructor
  · intro he; subst he; simp [nearest_time, ht, nearestAux]
  · intro hne
    cases times with
    | nil => exact absurd rfl hne
    | cons s0 rest =>
      have hs0 : (parseHM s0).isSome = true := hall s0 (by simp)
      obtain ⟨p0, hp0⟩ := Option.isSome_iff_exists.mp hs0
      have hrest : ∀ x ∈ rest, (parseHM x).isSome = true := fun x hx => hall x (by simp [hx])
      have hd0 : absDiff (minutesOfHM p0) (minutesOfHM tp) = slotDist (minutesOfHM tp) s0 := by
        simp [slotDist, hp0]
      have hrun : nearest_time target (s0 :: rest)
          = .ok (some (firstMin1 (s0, slotDist (minutesOfHM tp) s0)
              (distPairs (minutesOfHM tp) rest)).1) := by
        simp only [nearest_time, ht, nearestAux, hp0, hd0]
        exact nearestAux_eq_firstMin1 (minutesOfHM tp) rest hrest s0 _
      obtain ⟨i, hi, hget, hmin, hstrict⟩ :=
        firstMin1_spec (distPairs (minutesOfHM tp) rest) (s0, slotDist (minutesOfHM tp) s0)
      have hpairs : ((s0, slotDist (minutesOfHM tp) s0) :: distPairs (minutesOfHM tp) rest)
          = distPairs (minutesOfHM tp) (s0 :: rest) := by
        simp [distPairs]
      rw [hpairs] at hi hget hmin hstrict
      have hgm := hget
      rw [distPairs, List.get?_map] at hgm
      cases hg : (s0 :: rest).get? i with
      | none => rw [hg] at hgm; simp at hgm
      | some si =>
        rw [hg] at hgm
        simp only [Option.map_some', Option.some.injEq] at hgm
        refine ⟨i, si, ?_, hg, ?_, ?_, ?_⟩
        · have : (distPairs (minutesOfHM tp) (s0 :: rest)).length = (s0 :: rest).length := by
            simp [distPairs]
          omega
        · rw [hrun, ← hgm]
        · intro s hs
          have hmem : (s, slotDist (minutesOfHM tp) s) ∈ distPairs (minutesOfHM tp) (s0 :: rest) :=
            List.mem_map_of_mem _ hs
          have := hmin _ hmem
          rw [← hgm] at this
          simpa using this
        · intro j sj hj hgj
          have hgj2 : (distPairs (minutesOfHM tp) (s0 :: rest)).get? j
              = some (sj, slotDist (minutesOfHM tp) sj) := by
            rw [distPairs, List.get?_map, hgj]; rfl
          have := hstrict j _ hj hgj2
          rw [← hgm] at this
          simpa using this

/-- Witness for `c7_nearest_earliest_minimal` on a genuine tie:
"09:30" is 30 minutes from both "09:00" and "10:00", and the
earlier-listed "09:00" is returned. -/
theorem c7_nearest_earliest_minimal_witness :
    ((["09:00", "10:00"] : List String) = [] →
      nearest_time "09:30" ["09:00", "10:00"] = .ok none) ∧
    ((["09:00", "10:00"] : List String) ≠ [] →
      ∃ i ri, i < (["09:00", "10:00"] : List String).length ∧
        (["09:00", "10:00"] : List String).get? i = some ri ∧
        nearest_time "09:30" ["09:00", "10:00"] = .ok (some ri) ∧
        (∀ s ∈ (["09:00", "10:00"] : List String),
          slotDist (minutesOfHM (9, 30)) ri ≤ slotDist (minutesOfHM (9, 30)) s) ∧
        (∀ j sj, j < i → (["09:00", "10:00"] : List String).get? j = some sj →
          slotDist (minutesOfHM (9, 30)) ri < slotDist (minutesOfHM (9, 30)) sj)) :=
  c7_nearest_earliest_minimal "09:30" ["09:00", "10:00"] (9, 30) (by decide) (by decide)

/-- Successful `find?` splits the list at the first element satisfying
the predicate, with every earlier element failing it. -/
theorem find?_eq_some_split {α : Type} (p : α → Bool) :
    ∀ (l : List α) (a : α), l.find? p = some a →
      ∃ l1 l2, l = l1 ++ a :: l2 ∧ p a = true ∧ ∀ b ∈ l1, p b = false := by
  intro l
  induction l with
  | nil => intro a h; simp [List.find?] at h
  | cons x xs ih =>
    intro a h
    by_cases hx : p x = true
    · rw [List.find?_cons_of_pos _ hx] at h
      cases h
      exact ⟨[], xs, rfl, hx, by simp⟩
    · rw [List.find?_cons_of_neg _ (by simpa using hx)] at h
      obtain ⟨l1, l2, hsplit, hpa, hl1⟩ := ih a h
      refine ⟨x :: l1, l2, by rw [hsplit]; rfl, hpa, ?_⟩
      intro b hb
      rcases List.mem_cons.mp hb with hb | hb
      · rw [hb]; simpa using hx
      · exact hl1 b hb

/-- Modelled from the spec words of the claim: the claimed normalization
strips a leading "Dr." or "Dr" and trims whitespace (used only to state
what the claim predicts, for comparison with `normalize_name`). -/
def specNormalizeName (s : String) : String :=
  let t := pyStrip s
  let cs := t.toList
  if cs.take 3 = ['D', 'r', '.'] then pyStrip (String.mk (cs.drop 3))
  else if cs.take 2 = ['D', 'r'] then pyStrip (String.mk (cs.drop 2))
  else t

/-- C10 counterexample: for input "Dr.Smith" the claim-described
normalization gives "Smith", a case-insensitive substring of the roster
name "Smith", so the claim predicts acceptance; but the regex in
`normalize_name` strips "Dr." only when followed by whitespace, here
yields "Dr", and `verify_physician` rejects, returning all roster
names. -/
theorem c10_dr_dot_smith_rejected :
    substrOf (lowerStr (specNormalizeName "Dr.Smith")).toList (lowerStr "Smith").toList
      = true ∧
    verify_physician [("Smith", ["09:00"])] "Dr.Smith" = (false, ["Smith"]) ∧
    normalize_name "Dr.Smith" = "Dr" := by
  decide

/-- C10 (amended): acceptance tests whether the regex-normalized input
(`normalize_name`: "Dr."/"Dr" stripped only when followed by whitespace,
else the leading capitalized-word run of the trimmed input, else the
trimmed input) is a case-insensitive substring of a roster name; on
acceptance the first matching roster name is returned in canonical
roster spelling, and on no match all roster names are returned. -/
theorem c10_verify_matches_regex_normalized (roster : Roster) (inp : String) :
    ((verify_physician roster inp).1 = true →
      ∃ l1 e l2, roster = l1 ++ e :: l2 ∧
        substrOf (lowerStr (normalize_name inp)).toList (lowerStr e.1).toList = true ∧
        (∀ e2 ∈ l1,
          substrOf (lowerStr (normalize_name inp)).toList (lowerStr e2.1).toList = false) ∧
        (verify_physician roster inp).2 = [e.1]) ∧
    ((verify_physician roster inp).1 = false →
      (verify_physician roster inp).2 = roster.map (fun e => e.1) ∧
      ∀ e ∈ roster,
        substrOf (lowerStr (normalize_name inp)).toList (lowerStr e.1).toList = false) := by
  simp only [verify_physician]
  cases hf : roster.find?
      (fun e => substrOf (lowerStr (normalize_name inp)).toList (lowerStr e.1).toList) with
  | none =>
    refine ⟨fun h => by simp at h, fun _ => ⟨rfl, ?_⟩⟩
    intro e he
    simpa using List.find?_eq_none.mp hf e he
  | some e =>
    refine ⟨fun _ => ?_, fun h => by simp at h⟩
    obtain ⟨l1, l2, hsplit, hpa, hl1⟩ := find?_eq_some_split _ roster e hf
    exact ⟨l1, e, l2, hsplit, hpa, fun e2 he2 => hl1 e2 he2, rfl⟩

/-- Witness for `c10_verify_matches_regex_normalized`: "Dr. Smith" is
accepted against the roster and stored as the canonical "Smith". -/
theorem c10_verify_matches_regex_normalized_witness :
    ∃ l1 e l2, ([("Smith", ["09:00"])] : Roster) = l1 ++ e :: l2 ∧
      substrOf (lowerStr (normalize_name "Dr. Smith")).toList (lowerStr e.1).toList = true ∧
      (∀ e2 ∈ l1,
        substrOf (lowerStr (normalize_name "Dr. Smith")).toList (lowerStr e2.1).toList
          = false) ∧
      (verify_physician [("Smith", ["09:00"])] "Dr. Smith").2 = [e.1] :=
  (c10_verify_matches_regex_normalized [("Smith", ["09:00"])] "Dr. Smith").1 (by decide)

/-- Two sessions, each constructing its own `PatientInfo()` as
`entrypoint` does. -/
def sessionRecordA : PatientInfo := {}

/-- The second session's independently constructed record. -/
def sessionRecordB : PatientInfo := {}

/-- C9 (code_bug): the dataclass default `appointment_info =
AppointmentInfo()` is evaluated once, so independently constructed
`PatientInfo` records alias the same `AppointmentInfo` object; recording
a referral through session A's record becomes visible through session
B's record. -/
theorem c9_shared_default_appointment_aliasing :
    sessionRecordA.appointment_info = sessionRecordB.appointment_info ∧
    (apptOf initialApptHeap sessionRecordB).has_referral = none ∧
    (apptOf (record_has_referral initialApptHeap sessionRecordA true).2
        sessionRecordB).has_referral = some true := by
  decide

end HelloHealth
